import Mathlib

/-!
A shallow embedding of src/lib/blocks.js, the BlockController of
insight-api-gemlink, together with theorems checking the specification's
claims against it.

Modelling conventions:
* JavaScript numbers that stay integral along the modelled paths
  (subsidies, satoshi amounts, heights, timestamps, sizes) are modelled as
  Nat or Int.  Every intermediate value in those paths stays below 2^53,
  so the JavaScript floating-point arithmetic on them is exact and the
  integer translation is value-faithful.  In particular in getBlockReward
  the statement subsidy /= 4000 coerces the bignum to the float 500000
  (exactly), and subsidy *= height stays exact for height < 4000.
* The comparison output.satoshis !== reward * 0.5 is modelled as
  2 * satoshis != reward: scaling a float by 0.5 is always exact, so the
  two tests agree on all integral inputs.
* Node-style callbacks (err, value) are modelled with Except: the
  collaborator either yields an error object carrying a numeric code or a
  value.  A callback that dereferences an absent value (a TypeError that
  never reaches the error handler) is modelled by a distinct crash
  outcome.
* The two LRU caches are modelled as association lists with
  overwrite-in-place set; no claim exercises capacity eviction.
* Calendar arithmetic (Date parsing and formatTimestamp rendering) is
  delegated to the JavaScript Date runtime; it is modelled as an
  environment of abstract functions.
* String.prototype.match(k) compiles the pool signature k as a regular
  expression.  We embed the fragment of JavaScript regular expressions
  generated by literal characters and the dot wildcard, which is enough
  to separate regular-expression search from plain substring search.
-/

namespace Blocks

/-- Embeds getBlockReward (blocks.js lines 371-397).  The first two
branches mirror `subsidy /= 4000; subsidy *= height` (exact in floats),
the third mirrors `BN(20 * 1e8).shrn(halvings)` followed by the identity
`parseInt(subsidy.toString(10))`. -/
def getBlockReward (height : Nat) : Nat :=
  if height < 4000 / 2 then
    20 * 100000000 / 4000 * height
  else if height < 4000 then
    20 * 100000000 / 4000 * (height + 1)
  else if 64 ≤ (height - 4000 / 2) / 2102400 then
    0
  else
    (20 * 100000000) >>> ((height - 4000 / 2) / 2102400)

/-- Modelled from the claim's words (C2): the exact integer schedule with
base = 20 * 1e8, a linear ramp below 4000, and a truncating right shift
(division by a power of two) with 64-or-more shifts defined as zero. -/
def rewardSchedule (h : Nat) : Nat :=
  if h < 2000 then
    20 * 100000000 / 4000 * h
  else if h < 4000 then
    20 * 100000000 / 4000 * (h + 1)
  else if 64 ≤ (h - 2000) / 2102400 then
    0
  else
    20 * 100000000 / 2 ^ ((h - 2000) / 2102400)

/-- Embeds isHexadecimal (blocks.js lines 38-43): the anchored
`/^[0-9a-fA-F]+$/` test (nonempty, all characters hexadecimal digits). -/
def isHexDigitChar (c : Char) : Bool :=
  ('0' ≤ c && c ≤ '9') || ('a' ≤ c && c ≤ 'f') || ('A' ≤ c && c ≤ 'F')

/-- Embeds isHexadecimal (blocks.js lines 38-43). -/
def isHexadecimal (s : String) : Bool :=
  0 < s.length && s.data.all isHexDigitChar

/-- Embeds checkBlockHash (blocks.js lines 45-52); true means the request
passes on to `next()`, false means it is rejected with a not-found
response. -/
def checkBlockHash (hash : String) : Bool :=
  !(hash.length < 64 || !isHexadecimal hash)

/-- A character matched by the regular-expression class backslash-d. -/
def isDigitChar (c : Char) : Bool :=
  '0' ≤ c && c ≤ '9'

/-- One attempted match of the (unanchored) date pattern of blocks.js
line 280 at the head of the character list: four digits, a dash, two
digits, a dash, two digits, with anything allowed afterwards. -/
def datePatternAt : List Char → Bool
  | d1 :: d2 :: d3 :: d4 :: s1 :: d5 :: d6 :: s2 :: d7 :: d8 :: _ =>
    isDigitChar d1 && isDigitChar d2 && isDigitChar d3 && isDigitChar d4 &&
    s1 == '-' && isDigitChar d5 && isDigitChar d6 && s2 == '-' &&
    isDigitChar d7 && isDigitChar d8
  | _ => false

/-- Embeds `datePattern.test(dateStr)` (blocks.js lines 280-281): the
regular expression is unanchored, so it tests whether the pattern occurs
anywhere in the string. -/
def hasDatePattern : List Char → Bool
  | [] => false
  | c :: cs => datePatternAt (c :: cs) || hasDatePattern cs

/-- Modelled from the claim's words (C8): a string well-formed as
yyyy-mm-dd, i.e. exactly ten characters of shape dddd-dd-dd. -/
def isWellFormedDate (s : String) : Bool :=
  match s.data with
  | [d1, d2, d3, d4, s1, d5, d6, s2, d7, d8] =>
    isDigitChar d1 && isDigitChar d2 && isDigitChar d3 && isDigitChar d4 &&
    s1 == '-' && isDigitChar d5 && isDigitChar d6 && s2 == '-' &&
    isDigitChar d7 && isDigitChar d8
  | _ => false

/-- Pool metadata stored in this.poolStrings (blocks.js lines 20-28). -/
structure PoolInfo where
  poolName : String
  url : String
deriving DecidableEq

/-- One entry of the static pools.json configuration. -/
structure Pool where
  poolName : String
  url : String
  searchStrings : List String

/-- JavaScript object property assignment on a string key: overwrite the
value if the key is present (keeping its position), else append. -/
def insertPoolString : List (String × PoolInfo) → String → PoolInfo →
    List (String × PoolInfo)
  | [], key, v => [(key, v)]
  | (k, w) :: rest, key, v =>
    if k = key then (key, v) :: rest else (k, w) :: insertPoolString rest key v

/-- Embeds the poolStrings construction of the BlockController
constructor (blocks.js lines 20-28). -/
def buildPoolStrings (pools : List Pool) : List (String × PoolInfo) :=
  pools.foldl
    (fun m pool =>
      pool.searchStrings.foldl
        (fun m s => insertPoolString m s { poolName := pool.poolName, url := pool.url })
        m)
    []

/-- One character of a JavaScript regular expression pattern (in the
embedded fragment: literals and the dot wildcard) matched against one
text character. -/
def regexCharMatch (p c : Char) : Bool :=
  p == '.' || p == c

/-- The embedded regular-expression fragment matched against a prefix of
the text. -/
def regexMatchHere : List Char → List Char → Bool
  | [], _ => true
  | _ :: _, [] => false
  | p :: ps, c :: cs => regexCharMatch p c && regexMatchHere ps cs

/-- Unanchored regular-expression search, as performed by
`text.match(pattern)` (blocks.js line 354). -/
def regexSearch : List Char → List Char → Bool
  | pat, [] => regexMatchHere pat []
  | pat, c :: cs => regexMatchHere pat (c :: cs) || regexSearch pat cs

/-- Embeds getPoolInfo (blocks.js lines 350-360): walk the poolStrings
table in insertion order and return the first entry whose key, compiled
as a regular expression, matches the decoded coinbase script text; an
empty object (none) when no key matches. -/
def getPoolInfo (poolStrings : List (String × PoolInfo)) (coinbaseText : String) :
    Option PoolInfo :=
  match poolStrings with
  | [] => none
  | (k, v) :: rest =>
    if regexSearch k.data coinbaseText.data then some v
    else getPoolInfo rest coinbaseText

/-- Plain prefix test on character lists. -/
def prefixHere : List Char → List Char → Bool
  | [], _ => true
  | _ :: _, [] => false
  | p :: ps, c :: cs => p == c && prefixHere ps cs

/-- Plain substring occurrence on character lists. -/
def substringOccurs : List Char → List Char → Bool
  | pat, [] => prefixHere pat []
  | pat, c :: cs => prefixHere pat (c :: cs) || substringOccurs pat cs

/-- Modelled from the claim's words (C6): return the pool of the first
signature, in insertion order, that occurs as a plain substring of the
decoded coinbase text; an empty object (none) otherwise. -/
def specPoolLookup (poolStrings : List (String × PoolInfo)) (text : String) :
    Option PoolInfo :=
  match poolStrings with
  | [] => none
  | (k, v) :: rest =>
    if substringOccurs k.data text.data then some v
    else specPoolLookup rest text

/-- A coinbase transaction output as delivered by the transaction-detail
collaborator: a satoshi amount and an address. -/
structure Output where
  satoshis : Nat
  address : String
deriving DecidableEq

/-- Embeds the forEach scan of transformBlock (blocks.js lines 132-139)
and of the summary path (lines 238-245): outputs whose amount equals
reward * 0.5 are skipped, and among the rest the strictly largest amount
seen so far is kept together with its address.  The accumulator starts at
lastBiggestNumber = 0 with no address. -/
def minerScan (reward : Nat) : List Output → Nat → Option String → Nat × Option String
  | [], best, addr => (best, addr)
  | o :: rest, best, addr =>
    if 2 * o.satoshis ≠ reward then
      if best < o.satoshis then minerScan reward rest o.satoshis (some o.address)
      else minerScan reward rest best addr
    else minerScan reward rest best addr

/-- The miner-address guess of transformBlock and of the summary path. -/
def minerAddress (outputs : List Output) (reward : Nat) : Option String :=
  (minerScan reward outputs 0 none).2

/-- The outputs kept for consideration by the miner-address guess: those
whose amount is not exactly reward * 0.5. -/
def skipFund (outputs : List Output) (reward : Nat) : List Output :=
  outputs.filter (fun o => 2 * o.satoshis ≠ reward)

/-- The first output of the list carrying the largest satoshi amount,
ties keeping the first-seen one. -/
def firstMax : List Output → Option Output
  | [] => none
  | o :: rest =>
    match firstMax rest with
    | none => some o
    | some m => if o.satoshis < m.satoshis then some m else some o

/-- The largest satoshi amount of the list (0 for the empty list). -/
def maxSats (l : List Output) : Nat :=
  l.foldr (fun o r => max o.satoshis r) 0

/-- Modelled from the claim's words (C4): the address of the output with
the strictly largest amount among the outputs whose amount is not exactly
reward * 0.5, ties keeping the first-seen largest. -/
def specMinerGuess (outputs : List Output) (reward : Nat) : Option String :=
  (firstMax (skipFund outputs reward)).map (fun o => o.address)

/-- A duck-typed JavaScript error object carrying a numeric code. -/
structure JsErr where
  code : Int
deriving DecidableEq

/-- Outcome of a request handler: handleErrors(null, res) produces an
empty not-found response, handleErrors(err, res) a generic failure, and
the success path hands the value on. -/
inductive Response (α : Type) where
  | notFound : Response α
  | failed : JsErr → Response α
  | ok : α → Response α
deriving DecidableEq

/-- Header metadata returned by getBlockHeader. -/
structure HeaderInfo where
  height : Nat
  confirmations : Int
  chainWork : String
  nextHash : Option String
deriving DecidableEq

/-- The resolved coinbase transaction returned by
getDetailedTransaction. -/
structure DetailedTx where
  outputs : List Output
deriving DecidableEq

/-- The bitcore-parsed block delivered by node.getBlock, restricted to
the fields transformBlock reads.  Fields whose values are produced by the
bitcore collaborator (difficulty, bits rendering, solution) are carried
as opaque data. -/
structure RawBlock where
  hash : String
  size : Nat
  version : Nat
  merkleRoot : String
  txHashes : List String
  time : Nat
  nonce : Nat
  solution : String
  bits : String
  difficulty : String
  prevHash : String
  coinbaseScript : String
deriving DecidableEq

/-- The raw block buffer delivered by getRawBlock together with the
partial parse performed at blocks.js lines 213-224: buffer length, header
time, transaction count, and the decoded coinbase input script. -/
structure RawBytes where
  length : Nat
  hex : String
  headerTime : Nat
  txCount : Nat
  coinbaseScript : String
deriving DecidableEq

/-- The native RPC getBlock response (response.result), of which only the
transaction id list is read. -/
structure ClientBlock where
  tx : List String
deriving DecidableEq

/-- The BlockDetail record built by transformBlock (blocks.js lines
122-163).  The JSON reward field is rewardSat / 1e8; the satoshi value is
carried here. -/
structure BlockDetail where
  hash : String
  size : Nat
  height : Nat
  version : Nat
  merkleroot : String
  tx : List String
  time : Nat
  nonce : Nat
  solution : String
  bits : String
  difficulty : String
  chainwork : String
  confirmations : Int
  previousblockhash : Option String
  nextblockhash : Option String
  rewardSat : Nat
  minedBy : Option String
  isMainChain : Bool
  poolInfo : Option PoolInfo
deriving DecidableEq

/-- The BlockSummary record built by the summary path (blocks.js lines
247-255). -/
structure BlockSummary where
  height : Nat
  size : Nat
  hash : String
  time : Nat
  txlength : Nat
  poolInfo : Option PoolInfo
  minedBy : Option String
deriving DecidableEq

/-- The collaborator node with its current tip height
(node.services.bitcoind.height) and the RPC surface consumed by the
controller. -/
structure Node where
  tipHeight : Int
  getBlock : String → Except JsErr RawBlock
  getRawBlock : String → Except JsErr RawBytes
  getBlockHeader : String → Except JsErr HeaderInfo
  clientGetBlock : String → Except JsErr ClientBlock
  getDetailedTransaction : String → Except JsErr DetailedTx
  getBlockHashesByTimestamp : Int → Int → Except JsErr (List String)

/-- Association-list get, the model of LRU get. -/
def cacheGet {α : Type} : List (String × α) → String → Option α
  | [], _ => none
  | (k, v) :: rest, key => if k = key then some v else cacheGet rest key

/-- Association-list set, the model of LRU set (no claim exercises
capacity eviction). -/
def cacheSet {α : Type} : List (String × α) → String → α → List (String × α)
  | [], key, v => [(key, v)]
  | (k, w) :: rest, key, v =>
    if k = key then (key, v) :: rest else (k, w) :: cacheSet rest key v

/-- this.blockCacheConfirmations, set to 6 in the constructor
(blocks.js line 17). -/
def blockCacheConfirmations : Int := 6

/-- Embeds _normalizePrevHash (blocks.js lines 113-120). -/
def normalizePrevHash (hash : String) : Option String :=
  if hash ≠ "0000000000000000000000000000000000000000000000000000000000000000" then
    some hash
  else
    none

/-- Embeds transformBlock (blocks.js lines 122-163).  The transaction
argument is optional because the caller ignores the error of
getDetailedTransaction and may hand over an absent transaction, which the
`if (transaction)` guard tolerates. -/
def transformBlock (poolStrings : List (String × PoolInfo)) (block : RawBlock)
    (info : HeaderInfo) (transaction : Option DetailedTx) : BlockDetail :=
  let reward := getBlockReward info.height
  let poolAddress : Option String :=
    match transaction with
    | none => none
    | some trx => minerAddress trx.outputs reward
  { hash := block.hash
    size := block.size
    height := info.height
    version := block.version
    merkleroot := block.merkleRoot
    tx := block.txHashes
    time := block.time
    nonce := block.nonce
    solution := block.solution
    bits := block.bits
    difficulty := block.difficulty
    chainwork := info.chainWork
    confirmations := info.confirmations
    previousblockhash := normalizePrevHash block.prevHash
    nextblockhash := info.nextHash
    rewardSat := reward
    minedBy := poolAddress
    isMainChain := info.confirmations ≠ -1
    poolInfo := getPoolInfo poolStrings block.coinbaseScript }

/-- Embeds BlockController.prototype.block (blocks.js lines 57-90).
Returns the response together with the block cache after the call.  On a
cache hit the confirmations field is recomputed against the current tip
(and, since the JavaScript code mutates the cached object in place, the
cache entry is updated as well).  On a miss, errors with code -5 or -8
from getBlock map to not-found, other getBlock and getBlockHeader errors
fail the request, the error of getDetailedTransaction is ignored (line
78), and the transformed result is stored only when its confirmations
reach blockCacheConfirmations. -/
def blockHandler (node : Node) (poolStrings : List (String × PoolInfo))
    (blockCache : List (String × BlockDetail)) (hash : String) :
    Response BlockDetail × List (String × BlockDetail) :=
  match cacheGet blockCache hash with
  | some blockCached =>
    let b := { blockCached with
               confirmations := node.tipHeight - (blockCached.height : Int) + 1 }
    (Response.ok b, cacheSet blockCache hash b)
  | none =>
    match node.getBlock hash with
    | Except.error e =>
      if e.code = -5 ∨ e.code = -8 then (Response.notFound, blockCache)
      else (Response.failed e, blockCache)
    | Except.ok block =>
      match node.getBlockHeader hash with
      | Except.error e => (Response.failed e, blockCache)
      | Except.ok info =>
        let txHash := block.txHashes.headD ""
        let trx : Option DetailedTx :=
          match node.getDetailedTransaction txHash with
          | Except.error _ => none
          | Except.ok t => some t
        let blockResult := transformBlock poolStrings block info trx
        let blockCache' :=
          if blockCacheConfirmations ≤ blockResult.confirmations then
            cacheSet blockCache hash blockResult
          else blockCache
        (Response.ok blockResult, blockCache')

/-- Embeds BlockController.prototype.rawBlock (blocks.js lines 95-111). -/
def rawBlockHandler (node : Node) (blockHash : String) : Response String :=
  match node.getRawBlock blockHash with
  | Except.error e =>
    if e.code = -5 ∨ e.code = -8 then Response.notFound
    else Response.failed e
  | Except.ok blockBuffer => Response.ok blockBuffer.hex

/-- Outcome of one _getBlockSummary call: an error passed to next(err), a
TypeError thrown inside a callback (which never reaches next), or a
summary passed to next(null, summary). -/
inductive SummaryOutcome where
  | err : JsErr → SummaryOutcome
  | crash : SummaryOutcome
  | ok : BlockSummary → SummaryOutcome
deriving DecidableEq

/-- The full result of one _getBlockSummary call.  localMoreTimestamp is
the callee-local copy of the moreTimestamp argument after finish() ran:
JavaScript passes numbers by value, so the caller never observes it. -/
structure SummaryStep where
  result : SummaryOutcome
  localMoreTimestamp : Int
  cache : List (String × BlockSummary)

/-- The finish() update of _getBlockSummary (blocks.js lines 196-199):
lower the local moreTimestamp to the result time when the latter is
smaller. -/
def finishMoreTimestamp (moreTimestamp : Int) (resultTime : Nat) : Int :=
  if (resultTime : Int) < moreTimestamp then (resultTime : Int) else moreTimestamp

/-- Embeds _getBlockSummary (blocks.js lines 193-268).  On a cache miss
the raw block is fetched (any error, including codes -5 and -8, is passed
to next unchanged).  The native RPC getBlock's error argument is ignored
and response.result is dereferenced at once (line 227), so an error there
is a crash.  getDetailedTransaction's error argument is ignored as well
(line 228), leaving trx possibly absent, and getBlockHeader is then
consulted inside that callback: a header error is passed to next
unchanged even when getDetailedTransaction failed (lines 229-232).  Only
after the header succeeds is trx.outputs dereferenced (line 238), so an
absent trx crashes there.  The built summary is cached only when the
transient confirmations value reaches blockCacheConfirmations. -/
def getBlockSummary (node : Node) (poolStrings : List (String × PoolInfo))
    (summaryCache : List (String × BlockSummary)) (hash : String)
    (moreTimestamp : Int) : SummaryStep :=
  match cacheGet summaryCache hash with
  | some summaryHit =>
    { result := SummaryOutcome.ok summaryHit
      localMoreTimestamp := finishMoreTimestamp moreTimestamp summaryHit.time
      cache := summaryCache }
  | none =>
    match node.getRawBlock hash with
    | Except.error e =>
      { result := SummaryOutcome.err e
        localMoreTimestamp := moreTimestamp
        cache := summaryCache }
    | Except.ok blockBuffer =>
      match node.clientGetBlock hash with
      | Except.error _ =>
        { result := SummaryOutcome.crash
          localMoreTimestamp := moreTimestamp
          cache := summaryCache }
      | Except.ok response =>
        let trx : Option DetailedTx :=
          match node.getDetailedTransaction (response.tx.headD "") with
          | Except.error _ => none
          | Except.ok t => some t
        match node.getBlockHeader hash with
        | Except.error e =>
          { result := SummaryOutcome.err e
            localMoreTimestamp := moreTimestamp
            cache := summaryCache }
        | Except.ok blockHeader =>
          match trx with
          | none =>
            { result := SummaryOutcome.crash
              localMoreTimestamp := moreTimestamp
              cache := summaryCache }
          | some trx =>
            let height := blockHeader.height
            let reward := getBlockReward height
            let summary : BlockSummary :=
              { height := height
                size := blockBuffer.length
                hash := hash
                time := blockBuffer.headerTime
                txlength := blockBuffer.txCount
                poolInfo := getPoolInfo poolStrings blockBuffer.coinbaseScript
                minedBy := minerAddress trx.outputs reward }
            let confirmations := node.tipHeight - (height : Int) + 1
            let cache' :=
              if blockCacheConfirmations ≤ confirmations then
                cacheSet summaryCache hash summary
              else summaryCache
            { result := SummaryOutcome.ok summary
              localMoreTimestamp := finishMoreTimestamp moreTimestamp summary.time
              cache := cache' }

/-- Outcome of the async.mapSeries loop (blocks.js lines 313-317): the
first error aborts the whole loop with no partial results. -/
inductive ListBuild where
  | err : JsErr → ListBuild
  | crash : ListBuild
  | ok : List BlockSummary → List (String × BlockSummary) → ListBuild
deriving DecidableEq

/-- Embeds the async.mapSeries loop of list (blocks.js lines 313-317):
sequential builds threading the summary cache, every iteration receiving
the same outer moreTimestamp value (the outer variable is never
reassigned) and discarding the callee-local copy. -/
def buildSummaries (node : Node) (poolStrings : List (String × PoolInfo))
    (moreTimestamp : Int) : List String → List (String × BlockSummary) → ListBuild
  | [], cache => ListBuild.ok [] cache
  | hash :: rest, cache =>
    let step := getBlockSummary node poolStrings cache hash moreTimestamp
    match step.result with
    | SummaryOutcome.err e => ListBuild.err e
    | SummaryOutcome.crash => ListBuild.crash
    | SummaryOutcome.ok s =>
      match buildSummaries node poolStrings moreTimestamp rest step.cache with
      | ListBuild.err e => ListBuild.err e
      | ListBuild.crash => ListBuild.crash
      | ListBuild.ok blocks cacheOut => ListBuild.ok (s :: blocks) cacheOut

/-- Stable insertion into a list kept in descending height order,
matching the stable JavaScript sort with comparator b.height - a.height
(blocks.js lines 323-325). -/
def insertByHeightDesc (s : BlockSummary) : List BlockSummary → List BlockSummary
  | [] => [s]
  | t :: ts =>
    if t.height ≤ s.height then s :: t :: ts
    else t :: insertByHeightDesc s ts

/-- Stable sort by descending height. -/
def sortByHeightDesc : List BlockSummary → List BlockSummary
  | [] => []
  | s :: rest => insertByHeightDesc s (sortByHeightDesc rest)

/-- The pagination cursor of the listing response (blocks.js lines
330-342). -/
structure Pagination where
  next : Option String
  prev : String
  currentTs : Int
  current : String
  isToday : Bool
  more : Bool
  moreTs : Option Int
deriving DecidableEq

/-- The listing response body (blocks.js lines 327-338). -/
structure ListData where
  blocks : List BlockSummary
  length : Nat
  pagination : Pagination
deriving DecidableEq

/-- Outcome of the list endpoint. -/
inductive ListOutcome where
  | invalidInput : ListOutcome
  | failed : JsErr → ListOutcome
  | crash : ListOutcome
  | ok : ListData → ListOutcome
deriving DecidableEq

/-- Calendar arithmetic delegated to the JavaScript Date runtime:
todayStr is this.formatTimestamp(new Date()), dateToEpoch is
Math.round(new Date(dateStr).getTime() / 1000), epochToDateStr is
this.formatTimestamp(new Date(t * 1000)). -/
structure DateEnv where
  todayStr : String
  dateToEpoch : String → Int
  epochToDateStr : Int → String

/-- The query parameters of the list endpoint.  startTimestamp is none
when the parameter is absent; the JavaScript fallback
`parseInt(...) || gte + 86400` also fires on a parsed 0, which the model
keeps. -/
structure ListRequest where
  blockDate : Option String
  startTimestamp : Option Int
  limit : Option Nat
deriving DecidableEq

/-- BLOCK_LIMIT (blocks.js line 33). -/
def BLOCK_LIMIT : Nat := 200

/-- The body of list after date validation succeeded (blocks.js lines
291-347): resolve the window, fetch the hash index, reverse it so the
newest block comes first, truncate to the limit setting more, build the
summaries sequentially, sort by descending height and emit the cursor.
moreTs, when emitted, is the moreTimestamp variable of list, which still
holds its initial value lte because _getBlockSummary only ever updated
its own local copy. -/
def listBlocksBody (node : Node) (poolStrings : List (String × PoolInfo))
    (env : DateEnv) (summaryCache : List (String × BlockSummary))
    (req : ListRequest) (dateStr : String) (isToday : Bool) : ListOutcome :=
  let gte := env.dateToEpoch dateStr
  let lte :=
    match req.startTimestamp with
    | some t => if t = 0 then gte + 86400 else t
    | none => gte + 86400
  let prev := env.epochToDateStr (gte - 86400)
  let next := if lte = 0 then none else some (env.epochToDateStr lte)
  let limit := req.limit.getD BLOCK_LIMIT
  let moreTimestamp := lte
  match node.getBlockHashesByTimestamp lte gte with
  | Except.error e => ListOutcome.failed e
  | Except.ok hashes =>
    let hashes := hashes.reverse
    let more := limit < hashes.length
    let hashes := if more then hashes.take limit else hashes
    match buildSummaries node poolStrings moreTimestamp hashes summaryCache with
    | ListBuild.err e => ListOutcome.failed e
    | ListBuild.crash => ListOutcome.crash
    | ListBuild.ok blocks _ =>
      let blocks := sortByHeightDesc blocks
      ListOutcome.ok
        { blocks := blocks
          length := blocks.length
          pagination :=
            { next := next
              prev := prev
              currentTs := lte - 1
              current := dateStr
              isToday := isToday
              more := more
              moreTs := if more then some moreTimestamp else none } }

/-- Embeds BlockController.prototype.list (blocks.js lines 271-348).  An
explicit blockDate is tested against the unanchored date pattern and a
failure returns the format error before any node call; otherwise today's
date string is used. -/
def listBlocks (node : Node) (poolStrings : List (String × PoolInfo))
    (env : DateEnv) (summaryCache : List (String × BlockSummary))
    (req : ListRequest) : ListOutcome :=
  match req.blockDate with
  | some d =>
    if hasDatePattern d.data then
      listBlocksBody node poolStrings env summaryCache req d (d = env.todayStr)
    else
      ListOutcome.invalidInput
  | none =>
    listBlocksBody node poolStrings env summaryCache req env.todayStr true

/-! Concrete fixtures used by witnesses and counterexamples. -/

/-- A bitcore-parsed block fixture. -/
def sampleRawBlock : RawBlock :=
  { hash := "deadbeef"
    size := 300
    version := 4
    merkleRoot := "mr"
    txHashes := ["t2"]
    time := 1704100000
    nonce := 7
    solution := "sol"
    bits := "1c1fffff"
    difficulty := "12.3"
    prevHash := "aa"
    coinbaseScript := "cb" }

/-- A raw-buffer fixture with its partial parse. -/
def sampleRawBytes : RawBytes :=
  { length := 300
    hex := "00"
    headerTime := 1704100000
    txCount := 2
    coinbaseScript := "cb" }

/-- A header fixture at height 10 with a chosen confirmations count. -/
def sampleHeader (conf : Int) : HeaderInfo :=
  { height := 10, confirmations := conf, chainWork := "cw", nextHash := none }

/-- A resolved coinbase transaction fixture. -/
def sampleTx : DetailedTx :=
  { outputs := [{ satoshis := 1000000000, address := "B" }] }

/-- A healthy collaborator node fixture at tip height 100 whose header
reports the chosen confirmations count. -/
def sampleNode (conf : Int) : Node :=
  { tipHeight := 100
    getBlock := fun _ => Except.ok sampleRawBlock
    getRawBlock := fun _ => Except.ok sampleRawBytes
    getBlockHeader := fun _ => Except.ok (sampleHeader conf)
    clientGetBlock := fun _ => Except.ok { tx := ["t2"] }
    getDetailedTransaction := fun _ => Except.ok sampleTx
    getBlockHashesByTimestamp := fun _ _ => Except.ok ["h1", "h2"] }

/-- The block detail built from the healthy fixtures at confirmations 6. -/
def sampleDetail : BlockDetail :=
  transformBlock [] sampleRawBlock (sampleHeader 6) (some sampleTx)

/-- A node whose transaction-detail collaborator fails. -/
def dtErrNode : Node :=
  { sampleNode 6 with getDetailedTransaction := fun _ => Except.error { code := -99 } }

/-- A node whose transaction-detail and getBlockHeader collaborators both
fail. -/
def dtxHdrErrNode : Node :=
  { sampleNode 6 with
    getDetailedTransaction := fun _ => Except.error { code := -99 }
    getBlockHeader := fun _ => Except.error { code := 8 } }

/-- A node whose collaborators all fail with the given code, except the
hash-by-timestamp index which returns one hash. -/
def errNode (c : Int) : Node :=
  { tipHeight := 100
    getBlock := fun _ => Except.error { code := c }
    getRawBlock := fun _ => Except.error { code := c }
    getBlockHeader := fun _ => Except.error { code := c }
    clientGetBlock := fun _ => Except.error { code := c }
    getDetailedTransaction := fun _ => Except.error { code := c }
    getBlockHashesByTimestamp := fun _ _ => Except.ok ["h1"] }

/-- A calendar environment fixture: today is 2026-10-11, the date
2024-01-01 parses to epoch 1704067200. -/
def sampleEnv : DateEnv :=
  { todayStr := "2026-10-11"
    dateToEpoch := fun s => if s = "2024-01-01" then 1704067200 else 0
    epochToDateStr := fun t => if t = 1704153600 then "2024-01-02" else "2023-12-31" }

/-- The listing request of the C3 scenario: date 2024-01-01 and limit 1
against a two-hash day. -/
def c3Req : ListRequest :=
  { blockDate := some "2024-01-01", startTimestamp := none, limit := some 1 }

/-- The single summary built in the C3 scenario. -/
def c3Summary : BlockSummary :=
  { height := 10
    size := 300
    hash := "h2"
    time := 1704100000
    txlength := 2
    poolInfo := none
    minedBy := some "B" }

/-- The full listing response of the C3 scenario. -/
def c3Data : ListData :=
  { blocks := [c3Summary]
    length := 1
    pagination :=
      { next := some "2024-01-02"
        prev := "2023-12-31"
        currentTs := 1704153599
        current := "2024-01-01"
        isToday := false
        more := true
        moreTs := some 1704153600 } }

/-- The coinbase output list of the claimed C4 example. -/
def c4Example : List Output :=
  [{ satoshis := 500000000, address := "A" },
   { satoshis := 1000000000, address := "B" },
   { satoshis := 1000000000, address := "C" }]

/-- A pool table whose single signature contains a regex metacharacter. -/
def c6DotTable : List (String × PoolInfo) :=
  buildPoolStrings [{ poolName := "P", url := "u", searchStrings := ["a.b"] }]

/-- A pool table whose single signature is metacharacter-free. -/
def c6PlainTable : List (String × PoolInfo) :=
  buildPoolStrings [{ poolName := "P", url := "u", searchStrings := ["pool"] }]

/-- A 65-character hexadecimal string (one longer than a block hash). -/
def hex65 : String :=
  "0123456789abcdef0123456789abcdef0123456789abcdef0123456789abcdefA"

/-! Helper lemmas. -/

/-- Setting a key makes it retrievable with the stored value. -/
theorem cacheGet_cacheSet {α : Type} (c : List (String × α)) (k : String) (v : α) :
    cacheGet (cacheSet c k v) k = some v := by
  induction c with
  | nil => simp [cacheSet, cacheGet]
  | cons p rest ih =>
    obtain ⟨k', w⟩ := p
    by_cases h : k' = k
    · simp [cacheSet, cacheGet, h]
    · simp [cacheSet, cacheGet, h, ih]

/-- transformBlock copies the header's confirmations field verbatim. -/
theorem transformBlock_confirmations (ps : List (String × PoolInfo)) (b : RawBlock)
    (info : HeaderInfo) (t : Option DetailedTx) :
    (transformBlock ps b info t).confirmations = info.confirmations := rfl

/-! Claim C1. -/

/-- C1: in the block handler, a cache store happens only when the
transformed record's confirmations reach 6 (below the threshold the
cache is untouched, so a fresh entity stays unretrievable), at 6 or more
the stored record is retrievable, and every detail-cache hit returns the
record with its confirmations recomputed as tip - height + 1 against the
current tip. -/
theorem blockCache_confirmation_gate :
    (∀ (node : Node) (ps : List (String × PoolInfo)) (cache : List (String × BlockDetail))
       (h : String) (b : RawBlock) (info : HeaderInfo),
       cacheGet cache h = none →
       node.getBlock h = Except.ok b →
       node.getBlockHeader h = Except.ok info →
       info.confirmations < 6 →
       (blockHandler node ps cache h).2 = cache) ∧
    (∀ (node : Node) (ps : List (String × PoolInfo)) (cache : List (String × BlockDetail))
       (h : String) (b : RawBlock) (info : HeaderInfo),
       cacheGet cache h = none →
       node.getBlock h = Except.ok b →
       node.getBlockHeader h = Except.ok info →
       6 ≤ info.confirmations →
       ∃ r, (blockHandler node ps cache h).1 = Response.ok r ∧
         r.confirmations = info.confirmations ∧
         cacheGet (blockHandler node ps cache h).2 h = some r) ∧
    (∀ (node : Node) (ps : List (String × PoolInfo)) (cache : List (String × BlockDetail))
       (h : String) (b : BlockDetail),
       cacheGet cache h = some b →
       (blockHandler node ps cache h).1 =
         Response.ok { b with confirmations := node.tipHeight - (b.height : Int) + 1 }) := by
  refine ⟨?_, ?_, ?_⟩
  · intro node ps cache h b info hmiss hblock hinfo hconf
    simp only [blockHandler, hmiss, hblock, hinfo, transformBlock_confirmations,
      blockCacheConfirmations]
    rw [if_neg (by omega)]
  · intro node ps cache h b info hmiss hblock hinfo hconf
    refine ⟨transformBlock ps b info
      (match node.getDetailedTransaction (b.txHashes.headD "") with
       | Except.error _ => none
       | Except.ok t => some t), ?_, ?_, ?_⟩
    · simp only [blockHandler, hmiss, hblock, hinfo]
    · exact transformBlock_confirmations ..
    · simp only [blockHandler, hmiss, hblock, hinfo, transformBlock_confirmations,
        blockCacheConfirmations]
      rw [if_pos hconf]
      exact cacheGet_cacheSet ..
  · intro node ps cache h b hhit
    simp only [blockHandler, hhit]

/-- Witness for C1 at the concrete fixtures: a store attempt at
confirmations 5 leaves the cache empty, at confirmations 6 the record is
stored and retrievable, and a hit at tip height 100 on a height-10 entry
comes back with confirmations 91. -/
theorem blockCache_confirmation_gate_witness :
    (blockHandler (sampleNode 5) [] [] "deadbeef").2 = [] ∧
    (∃ r, (blockHandler (sampleNode 6) [] [] "deadbeef").1 = Response.ok r ∧
      r.confirmations = (sampleHeader 6).confirmations ∧
      cacheGet (blockHandler (sampleNode 6) [] [] "deadbeef").2 "deadbeef" = some r) ∧
    (blockHandler (sampleNode 6) [] [("deadbeef", sampleDetail)] "deadbeef").1 =
      Response.ok { sampleDetail with
        confirmations := (sampleNode 6).tipHeight - (sampleDetail.height : Int) + 1 } :=
  ⟨blockCache_confirmation_gate.1 (sampleNode 5) [] [] "deadbeef" sampleRawBlock
      (sampleHeader 5) rfl rfl rfl (by decide),
   blockCache_confirmation_gate.2.1 (sampleNode 6) [] [] "deadbeef" sampleRawBlock
      (sampleHeader 6) rfl rfl rfl (by decide),
   blockCache_confirmation_gate.2.2 (sampleNode 6) [] [("deadbeef", sampleDetail)]
      "deadbeef" sampleDetail rfl⟩

/-! Claim C2. -/

/-- C2: getBlockReward equals the exact integer schedule of the claim for
every height, and the reward at height 0 is 0. -/
theorem getBlockReward_eq_schedule :
    (∀ h : Nat, getBlockReward h = rewardSchedule h) ∧ getBlockReward 0 = 0 := by
  constructor
  · intro h
    simp only [getBlockReward, rewardSchedule, Nat.shiftRight_eq_div_pow]
  · rfl

/-- Witness for C2 at a concrete height past the first halving. -/
theorem getBlockReward_eq_schedule_witness :
    getBlockReward 2104400 = rewardSchedule 2104400 :=
  getBlockReward_eq_schedule.1 2104400

/-! Claim C7. -/

/-- C7 counterexample: the reward at height 4000 + 2102400 - 1 is already
halved, so it differs from the unhalved reward at height 4000, and no
halving step lies between heights 4000 + 2102400 - 1 and 4000 + 2102400
(both are 1000000000). -/
theorem halving_boundary_counterexample :
    getBlockReward 4000 = 2000000000 ∧
    getBlockReward (4000 + 2102400 - 1) = 1000000000 ∧
    getBlockReward (4000 + 2102400) = 1000000000 ∧
    getBlockReward (4000 + 2102400 - 1) ≠ getBlockReward 4000 := by
  refine ⟨by decide, by decide, by decide, by decide⟩

/-- C7 amended: the first halving boundary sits at height 2000 + 2102400
= 2104400 (the slow-start offset is 2000, not 4000): the reward is the
constant unhalved 2000000000 on [4000, 2104400), and the constant
once-halved 1000000000 on [2104400, 4206800), so exactly one halving
step occurs there, between heights 2104399 and 2104400. -/
theorem halving_boundary_amended :
    (∀ h, 4000 ≤ h → h < 2104400 → getBlockReward h = 2000000000) ∧
    (∀ h, 2104400 ≤ h → h < 4206800 → getBlockReward h = 1000000000) ∧
    getBlockReward 2104399 = 2000000000 ∧
    getBlockReward 2104400 = 1000000000 := by
  refine ⟨?_, ?_, by decide, by decide⟩
  · intro h h1 h2
    have e0 : ¬h < 4000 / 2 := by omega
    have e1 : ¬h < 4000 := by omega
    have e2 : (h - 4000 / 2) / 2102400 = 0 := by omega
    simp [getBlockReward, e0, e1, e2]
  · intro h h1 h2
    have e0 : ¬h < 4000 / 2 := by omega
    have e1 : ¬h < 4000 := by omega
    have e2 : (h - 4000 / 2) / 2102400 = 1 := by omega
    simp [getBlockReward, e0, e1, e2]

/-- Witness for C7 amended at the heights the original claim names. -/
theorem halving_boundary_amended_witness :
    getBlockReward 4000 = 2000000000 ∧
    getBlockReward (4000 + 2102400 - 1) = 1000000000 ∧
    getBlockReward (4000 + 2102400) = 1000000000 :=
  ⟨halving_boundary_amended.1 4000 (by decide) (by decide),
   halving_boundary_amended.2.1 (4000 + 2102400 - 1) (by decide) (by decide),
   halving_boundary_amended.2.1 (4000 + 2102400) (by decide) (by decide)⟩

/-! Claim C10. -/

/-- C10: checkBlockHash passes exactly the strings of length at least 64
all of whose characters are hexadecimal digits; in particular a
65-character hexadecimal string passes as well. -/
theorem checkBlockHash_characterization :
    (∀ s : String, checkBlockHash s = true ↔
      (64 ≤ s.length ∧ ∀ c ∈ s.data, isHexDigitChar c = true)) ∧
    (checkBlockHash hex65 = true ∧ 64 < hex65.length) := by
  constructor
  · intro s
    simp only [checkBlockHash, isHexadecimal, Bool.not_eq_true', Bool.or_eq_false_iff,
      Bool.not_eq_false', Bool.and_eq_true, List.all_eq_true, decide_eq_false_iff_not,
      Nat.not_lt, decide_eq_true_eq]
    constructor
    · rintro ⟨h1, _, h3⟩
      exact ⟨h1, h3⟩
    · rintro ⟨h1, h2⟩
      exact ⟨h1, by omega, h2⟩
  · exact ⟨by decide, by decide⟩

/-- Witness for C10 at a concrete over-long hexadecimal string. -/
theorem checkBlockHash_characterization_witness :
    checkBlockHash hex65 = true ↔
      (64 ≤ hex65.length ∧ ∀ c ∈ hex65.data, isHexDigitChar c = true) :=
  checkBlockHash_characterization.1 hex65

/-! Claim C4: helper lemmas about the miner scan. -/

/-- skipFund keeps an output whose doubled amount differs from the
reward. -/
theorem skipFund_cons_keep {o : Output} {reward : Nat} (l : List Output)
    (h : 2 * o.satoshis ≠ reward) :
    skipFund (o :: l) reward = o :: skipFund l reward := by
  simp [skipFund, List.filter_cons, h]

/-- skipFund drops an output whose doubled amount equals the reward. -/
theorem skipFund_cons_drop {o : Output} {reward : Nat} (l : List Output)
    (h : ¬2 * o.satoshis ≠ reward) :
    skipFund (o :: l) reward = skipFund l reward := by
  simp [skipFund, List.filter_cons, h]

/-- maxSats of the empty list. -/
theorem maxSats_nil : maxSats [] = 0 := rfl

/-- maxSats of a cons. -/
theorem maxSats_cons (o : Output) (l : List Output) :
    maxSats (o :: l) = max o.satoshis (maxSats l) := rfl

/-- Unfolding lemma for firstMax on a cons. -/
theorem firstMax_cons (o : Output) (rest : List Output) :
    firstMax (o :: rest) =
      match firstMax rest with
      | none => some o
      | some m => if o.satoshis < m.satoshis then some m else some o := rfl

/-- firstMax of a nonempty list is some output. -/
theorem firstMax_cons_ne_none (o : Output) (rest : List Output) :
    firstMax (o :: rest) ≠ none := by
  rw [firstMax_cons]
  cases hF : firstMax rest with
  | none => simp
  | some m => by_cases hlt : o.satoshis < m.satoshis <;> simp [hlt]

/-- A list whose firstMax is none is empty. -/
theorem eq_nil_of_firstMax_eq_none {l : List Output} (h : firstMax l = none) :
    l = [] := by
  cases l with
  | nil => rfl
  | cons o rest => exact absurd h (firstMax_cons_ne_none o rest)

/-- The output picked by firstMax carries the maximal amount. -/
theorem firstMax_sats : ∀ {l : List Output} {m : Output},
    firstMax l = some m → m.satoshis = maxSats l := by
  intro l
  induction l with
  | nil => intro m h; exact absurd h (by simp [firstMax])
  | cons o rest ih =>
    intro m h
    cases hF : firstMax rest with
    | none =>
      simp only [firstMax_cons, hF] at h
      obtain rfl : o = m := by simpa using h
      rw [eq_nil_of_firstMax_eq_none hF, maxSats_cons, maxSats_nil, Nat.max_zero]
    | some m' =>
      simp only [firstMax_cons, hF] at h
      by_cases hlt : o.satoshis < m'.satoshis
      · rw [if_pos hlt] at h
        obtain rfl : m' = m := by simpa using h
        rw [maxSats_cons, ← ih hF, Nat.max_eq_right (Nat.le_of_lt hlt)]
      · rw [if_neg hlt] at h
        obtain rfl : o = m := by simpa using h
        rw [maxSats_cons, ← ih hF, Nat.max_eq_left (Nat.le_of_not_lt hlt)]

/-- When no retained output exceeds the running best, the scan keeps its
accumulator. -/
theorem minerScan_all_le (reward : Nat) : ∀ (l : List Output) (best : Nat)
    (addr : Option String), maxSats (skipFund l reward) ≤ best →
    minerScan reward l best addr = (best, addr) := by
  intro l
  induction l with
  | nil => intro best addr _; rfl
  | cons o rest ih =>
    intro best addr h
    by_cases hf : 2 * o.satoshis ≠ reward
    · rw [skipFund_cons_keep rest hf, maxSats_cons] at h
      have ho : o.satoshis ≤ best := le_trans (Nat.le_max_left ..) h
      rw [minerScan, if_pos hf, if_neg (Nat.not_lt.mpr ho)]
      exact ih best addr (le_trans (Nat.le_max_right ..) h)
    · rw [skipFund_cons_drop rest hf] at h
      rw [minerScan, if_neg hf]
      exact ih best addr h

/-- When some retained output strictly exceeds the running best, the scan
ends at the maximal retained amount with the address of the first output
attaining it. -/
theorem minerScan_firstMax (reward : Nat) : ∀ (l : List Output) (best : Nat)
    (addr : Option String) (m : Output),
    firstMax (skipFund l reward) = some m → best < m.satoshis →
    minerScan reward l best addr = (maxSats (skipFund l reward), some m.address) := by
  intro l
  induction l with
  | nil => intro best addr m hm _; exact absurd hm (by simp [skipFund, firstMax])
  | cons o rest ih =>
    intro best addr m hm hbest
    by_cases hf : 2 * o.satoshis ≠ reward
    · rw [skipFund_cons_keep rest hf] at hm ⊢
      cases hF : firstMax (skipFund rest reward) with
      | none =>
        simp only [firstMax_cons, hF] at hm
        obtain rfl : o = m := by simpa using hm
        have hrest : skipFund rest reward = [] := eq_nil_of_firstMax_eq_none hF
        rw [minerScan, if_pos hf, if_pos hbest,
          minerScan_all_le reward rest o.satoshis (some o.address)
            (by rw [hrest]; exact Nat.zero_le _),
          maxSats_cons, hrest, maxSats_nil, Nat.max_zero]
      | some m' =>
        simp only [firstMax_cons, hF] at hm
        by_cases hlt : o.satoshis < m'.satoshis
        · rw [if_pos hlt] at hm
          obtain rfl : m' = m := by simpa using hm
          have hms : m'.satoshis = maxSats (skipFund rest reward) := firstMax_sats hF
          have hmax : max o.satoshis (maxSats (skipFund rest reward)) =
              maxSats (skipFund rest reward) :=
            Nat.max_eq_right (hms ▸ Nat.le_of_lt hlt)
          rw [minerScan, if_pos hf, maxSats_cons, hmax]
          by_cases hob : best < o.satoshis
          · rw [if_pos hob]
            exact ih o.satoshis (some o.address) m' hF hlt
          · rw [if_neg hob]
            exact ih best addr m' hF hbest
        · rw [if_neg hlt] at hm
          obtain rfl : o = m := by simpa using hm
          have hms : m'.satoshis = maxSats (skipFund rest reward) := firstMax_sats hF
          rw [minerScan, if_pos hf, if_pos hbest,
            minerScan_all_le reward rest o.satoshis (some o.address)
              (by rw [← hms]; exact Nat.le_of_not_lt hlt),
            maxSats_cons, Nat.max_eq_left (by rw [← hms]; exact Nat.le_of_not_lt hlt)]
    · rw [skipFund_cons_drop rest hf] at hm ⊢
      rw [minerScan, if_neg hf]
      exact ih best addr m hm hbest

/-- C4 counterexample: with the single coinbase output of amount 0 and
address A (and a reward whose half is nonzero), the code guesses no
address at all, while the claim's first-seen-largest rule would pick A. -/
theorem minerAddress_counterexample :
    minerAddress [{ satoshis := 0, address := "A" }] 3 = none ∧
    specMinerGuess [{ satoshis := 0, address := "A" }] 3 = some "A" ∧
    minerAddress [{ satoshis := 0, address := "A" }] 3 ≠
      specMinerGuess [{ satoshis := 0, address := "A" }] 3 := by
  refine ⟨by decide, by decide, by decide⟩

/-- C4 amended: whenever some output not equal to reward halved has a
positive amount, the guess is the address of the output with the strictly
largest amount among the outputs whose amount is not exactly reward times
0.5, ties keeping the first-seen largest; when every retained amount is 0
(the strict scan never fires) no address is guessed.  The claimed
concrete example holds: for outputs of 500000000 to A, 1000000000 to B
and 1000000000 to C with reward 1000000000 the guess is B. -/
theorem minerAddress_first_max_amended :
    (∀ (outputs : List Output) (reward : Nat),
      0 < maxSats (skipFund outputs reward) →
      minerAddress outputs reward = specMinerGuess outputs reward) ∧
    minerAddress c4Example 1000000000 = some "B" ∧
    specMinerGuess c4Example 1000000000 = some "B" := by
  refine ⟨?_, by decide, by decide⟩
  intro outputs reward hpos
  cases hF : firstMax (skipFund outputs reward) with
  | none =>
    rw [eq_nil_of_firstMax_eq_none hF, maxSats_nil] at hpos
    exact absurd hpos (by omega)
  | some m =>
    have hms : m.satoshis = maxSats (skipFund outputs reward) := firstMax_sats hF
    rw [minerAddress, minerScan_firstMax reward outputs 0 none m hF (by omega),
      specMinerGuess, hF]
    rfl

/-- Witness for C4 amended at the claimed concrete example. -/
theorem minerAddress_first_max_amended_witness :
    0 < maxSats (skipFund c4Example 1000000000) ∧
    minerAddress c4Example 1000000000 = specMinerGuess c4Example 1000000000 :=
  ⟨by decide, minerAddress_first_max_amended.1 c4Example 1000000000 (by decide)⟩

/-! Claim C6: helper lemmas relating regular-expression search to plain
substring search for metacharacter-free patterns. -/

/-- On dot-free patterns an anchored regex match is a plain prefix
test. -/
theorem regexMatchHere_no_dot : ∀ (pat text : List Char), ('.' : Char) ∉ pat →
    regexMatchHere pat text = prefixHere pat text := by
  intro pat
  induction pat with
  | nil => intro text _; rfl
  | cons p ps ih =>
    intro text hnd
    have hp : p ≠ '.' := by
      intro hc
      exact hnd (by rw [hc]; exact List.mem_cons_self ..)
    have hps : ('.' : Char) ∉ ps := fun hc => hnd (List.mem_cons_of_mem p hc)
    cases text with
    | nil => rfl
    | cons c cs =>
      rw [regexMatchHere, prefixHere, regexCharMatch, ih cs hps]
      have hdot : (p == '.') = false := by
        simpa using hp
      rw [hdot, Bool.false_or]

/-- On dot-free patterns unanchored regex search is plain substring
search. -/
theorem regexSearch_no_dot (pat : List Char) (hnd : ('.' : Char) ∉ pat) :
    ∀ text : List Char, regexSearch pat text = substringOccurs pat text := by
  intro text
  induction text with
  | nil => rw [regexSearch, substringOccurs, regexMatchHere_no_dot pat [] hnd]
  | cons c cs ih =>
    rw [regexSearch, substringOccurs, regexMatchHere_no_dot pat (c :: cs) hnd, ih]

/-- C6 counterexample: the configured signature a.b does not occur as a
substring of the decoded coinbase text axb, yet the lookup returns its
pool because String.prototype.match compiles the signature as a regular
expression in which the dot matches any character. -/
theorem getPoolInfo_regex_counterexample :
    getPoolInfo c6DotTable "axb" = some { poolName := "P", url := "u" } ∧
    specPoolLookup c6DotTable "axb" = none ∧
    getPoolInfo c6DotTable "axb" ≠ specPoolLookup c6DotTable "axb" := by
  refine ⟨by decide, by decide, by decide⟩

/-- C6 amended: the lookup decodes the coinbase script bytes as text and
applies each configured signature, in configuration insertion order, as a
JavaScript regular expression, returning the first matching pool and an
empty object when none matches; for signatures free of regex
metacharacters (in the embedded fragment: free of the dot wildcard) this
coincides with the claim's substring search. -/
theorem getPoolInfo_substring_amended :
    ∀ (poolStrings : List (String × PoolInfo)) (text : String),
      (∀ kv ∈ poolStrings, ('.' : Char) ∉ kv.1.data) →
      getPoolInfo poolStrings text = specPoolLookup poolStrings text := by
  intro poolStrings text hnd
  induction poolStrings with
  | nil => rfl
  | cons kv rest ih =>
    obtain ⟨k, v⟩ := kv
    rw [getPoolInfo, specPoolLookup,
      regexSearch_no_dot k.data (hnd (k, v) (List.mem_cons_self ..)) text.data]
    split
    · rfl
    · exact ih fun kv h => hnd kv (List.mem_cons_of_mem (k, v) h)

/-- Witness for C6 amended: on a dot-free table the two lookups agree,
here both finding the pool whose signature occurs in the text. -/
theorem getPoolInfo_substring_amended_witness :
    getPoolInfo c6PlainTable "aXpoolYb" = specPoolLookup c6PlainTable "aXpoolYb" ∧
    getPoolInfo c6PlainTable "aXpoolYb" = some { poolName := "P", url := "u" } :=
  ⟨getPoolInfo_substring_amended c6PlainTable "aXpoolYb" (by decide), by decide⟩

/-! Claim C5. -/

/-- C5 counterexample: a getRawBlock error with code -5 inside the
summary path is handed to next unchanged and surfaces from the listing as
a generic failure carrying code -5, not as an empty/not-found result —
unlike the same code arriving at the block handler, which maps it to
not-found. -/
theorem summary_notFound_counterexample :
    (getBlockSummary (errNode (-5)) [] [] "h1" 0).result =
      SummaryOutcome.err { code := -5 } ∧
    listBlocks (errNode (-5)) [] sampleEnv []
      { blockDate := some "2024-01-01", startTimestamp := none, limit := none } =
      ListOutcome.failed { code := -5 } ∧
    (blockHandler (errNode (-5)) [] [] "deadbeef").1 = Response.notFound := by
  refine ⟨by decide, by decide, by decide⟩

/-- C5 amended: the block handler maps getBlock errors with code -5 or -8
to not-found, and the rawBlock handler does the same for getRawBlock
errors; but the summary path's getRawBlock call propagates every error,
codes -5 and -8 included, unchanged to the listing's generic error
handler. -/
theorem notFound_mapping_amended :
    (∀ (node : Node) (ps : List (String × PoolInfo))
       (cache : List (String × BlockDetail)) (h : String) (e : JsErr),
       cacheGet cache h = none →
       node.getBlock h = Except.error e →
       (e.code = -5 ∨ e.code = -8) →
       (blockHandler node ps cache h).1 = Response.notFound) ∧
    (∀ (node : Node) (h : String) (e : JsErr),
       node.getRawBlock h = Except.error e →
       (e.code = -5 ∨ e.code = -8) →
       rawBlockHandler node h = Response.notFound) ∧
    (∀ (node : Node) (ps : List (String × PoolInfo))
       (cache : List (String × BlockSummary)) (h : String) (mts : Int) (e : JsErr),
       cacheGet cache h = none →
       node.getRawBlock h = Except.error e →
       (getBlockSummary node ps cache h mts).result = SummaryOutcome.err e) := by
  refine ⟨?_, ?_, ?_⟩
  · intro node ps cache h e hmiss hblock hcode
    simp only [blockHandler, hmiss, hblock]
    rw [if_pos hcode]
  · intro node h e hraw hcode
    simp only [rawBlockHandler, hraw]
    rw [if_pos hcode]
  · intro node ps cache h mts e hmiss hraw
    simp only [getBlockSummary, hmiss, hraw]

/-- Witness for C5 amended at the concrete fixtures with code -8. -/
theorem notFound_mapping_amended_witness :
    (blockHandler (errNode (-8)) [] [] "deadbeef").1 = Response.notFound ∧
    rawBlockHandler (errNode (-8)) "deadbeef" = Response.notFound ∧
    (getBlockSummary (errNode (-8)) [] [] "h1" 0).result =
      SummaryOutcome.err { code := -8 } :=
  ⟨notFound_mapping_amended.1 (errNode (-8)) [] [] "deadbeef" { code := -8 }
      rfl rfl (by decide),
   notFound_mapping_amended.2.1 (errNode (-8)) "deadbeef" { code := -8 }
      rfl (by decide),
   notFound_mapping_amended.2.2 (errNode (-8)) [] [] "h1" 0 { code := -8 } rfl rfl⟩

/-! Claim C8. -/

/-- The post-validation body of list never reports the format error. -/
theorem listBlocksBody_ne_invalidInput (node : Node) (ps : List (String × PoolInfo))
    (env : DateEnv) (cache : List (String × BlockSummary)) (req : ListRequest)
    (dateStr : String) (isToday : Bool) :
    listBlocksBody node ps env cache req dateStr isToday ≠ ListOutcome.invalidInput := by
  simp only [listBlocksBody]
  split
  · simp
  · split <;> simp

/-- C8 counterexample: the string 2024-01-01x is not well-formed as
yyyy-mm-dd, yet it passes the unanchored date check and the request goes
on to hit the node: with a node whose getRawBlock fails with code 7 the
listing returns that node failure instead of the claimed InvalidInput. -/
theorem list_date_check_counterexample :
    isWellFormedDate "2024-01-01x" = false ∧
    hasDatePattern "2024-01-01x".data = true ∧
    listBlocks (errNode 7) [] sampleEnv []
      { blockDate := some "2024-01-01x", startTimestamp := none, limit := none } =
      ListOutcome.failed { code := 7 } := by
  refine ⟨by decide, by decide, by decide⟩

/-- C8 amended: the listing rejects a date string with the format error,
before any node call (uniformly in the node), exactly when no substring
of it matches the unanchored pattern dddd-dd-dd; the claimed example
2024/01/01 contains no such substring and is rejected, but a malformed
string that embeds the pattern (such as 2024-01-01x) passes the check and
reaches the node. -/
theorem list_format_check_amended :
    (∀ (s : String), hasDatePattern s.data = false →
      ∀ (node : Node) (ps : List (String × PoolInfo)) (env : DateEnv)
        (cache : List (String × BlockSummary)) (ts : Option Int) (lim : Option Nat),
        listBlocks node ps env cache
          { blockDate := some s, startTimestamp := ts, limit := lim } =
          ListOutcome.invalidInput) ∧
    (∀ (s : String), hasDatePattern s.data = true →
      ∀ (node : Node) (ps : List (String × PoolInfo)) (env : DateEnv)
        (cache : List (String × BlockSummary)) (ts : Option Int) (lim : Option Nat),
        listBlocks node ps env cache
          { blockDate := some s, startTimestamp := ts, limit := lim } ≠
          ListOutcome.invalidInput) ∧
    hasDatePattern "2024/01/01".data = false := by
  refine ⟨?_, ?_, by decide⟩
  · intro s hs node ps env cache ts lim
    simp [listBlocks, hs]
  · intro s hs node ps env cache ts lim
    simpa [listBlocks, hs] using
      listBlocksBody_ne_invalidInput node ps env cache
        { blockDate := some s, startTimestamp := ts, limit := lim } s (s = env.todayStr)

/-- Witness for C8 amended: 2024/01/01 is rejected before any node call,
while a well-formed date reaches the node. -/
theorem list_format_check_amended_witness :
    listBlocks (errNode 7) [] sampleEnv []
      { blockDate := some "2024/01/01", startTimestamp := none, limit := none } =
      ListOutcome.invalidInput ∧
    listBlocks (errNode 7) [] sampleEnv []
      { blockDate := some "2024-01-01", startTimestamp := none, limit := none } ≠
      ListOutcome.invalidInput :=
  ⟨list_format_check_amended.1 "2024/01/01" (by decide) (errNode 7) [] sampleEnv []
      none none,
   list_format_check_amended.2.1 "2024-01-01" (by decide) (errNode 7) [] sampleEnv []
      none none⟩

/-! Claim C9. -/

/-- A failing hash anywhere in the sequential mapSeries loop aborts the
whole loop with that error and no partial results. -/
theorem buildSummaries_append_err (node : Node) (ps : List (String × PoolInfo))
    (mts : Int) :
    ∀ (pre : List String) (cache cache' : List (String × BlockSummary))
      (ss : List BlockSummary) (h : String) (rest : List String) (e : JsErr),
      buildSummaries node ps mts pre cache = ListBuild.ok ss cache' →
      (getBlockSummary node ps cache' h mts).result = SummaryOutcome.err e →
      buildSummaries node ps mts (pre ++ h :: rest) cache = ListBuild.err e := by
  intro pre
  induction pre with
  | nil =>
    intro cache cache' ss h rest e hpre hstep
    rw [buildSummaries] at hpre
    injection hpre with h1 h2
    subst h1
    subst h2
    simp only [List.nil_append, buildSummaries, hstep]
  | cons p pre' ih =>
    intro cache cache' ss h rest e hpre hstep
    cases hs : (getBlockSummary node ps cache p mts).result with
    | err e' =>
      simp only [buildSummaries, hs] at hpre
      exact nomatch hpre
    | crash =>
      simp only [buildSummaries, hs] at hpre
      exact nomatch hpre
    | ok s =>
      simp only [buildSummaries, hs] at hpre
      cases hb : buildSummaries node ps mts pre' (getBlockSummary node ps cache p mts).cache with
      | err e' =>
        rw [hb] at hpre
        exact nomatch hpre
      | crash =>
        rw [hb] at hpre
        exact nomatch hpre
      | ok ss' c'' =>
        rw [hb] at hpre
        injection hpre with h1 h2
        subst h1
        subst h2
        simp only [List.cons_append, buildSummaries, hs, List.append_eq]
        rw [ih ((getBlockSummary node ps cache p mts).cache) c'' ss' h rest e hb hstep]

/-- C9 counterexample: with a collaborator whose getDetailedTransaction
fails with code -99, the block handler still answers with a transformed
block (built without transaction detail) instead of propagating the error
and aborting the request. -/
theorem detailedTx_error_ignored_counterexample :
    (blockHandler dtErrNode [] [] "x").1 =
      Response.ok (transformBlock [] sampleRawBlock (sampleHeader 6) none) ∧
    (blockHandler dtErrNode [] [] "x").1 ≠ Response.failed { code := -99 } := by
  refine ⟨by decide, by decide⟩

/-- C9 amended: errors reported by getRawBlock and getBlockHeader in the
summary path are propagated unchanged — the header error even when
getDetailedTransaction failed alongside it, since getBlockHeader is
consulted inside the transaction callback before its result is touched —
and a single failing hash aborts the whole listing with no partial
results; but errors from getDetailedTransaction are not propagated: the
block handler ignores them and returns the block transformed without
transaction detail, and the summary path ignores them too and, once the
header succeeds, dereferences the absent result, failing inside the
callback without ever reaching the error handler. -/
theorem error_propagation_amended :
    (∀ (node : Node) (ps : List (String × PoolInfo)) (mts : Int)
       (pre : List String) (cache cache' : List (String × BlockSummary))
       (ss : List BlockSummary) (h : String) (rest : List String) (e : JsErr),
       buildSummaries node ps mts pre cache = ListBuild.ok ss cache' →
       (getBlockSummary node ps cache' h mts).result = SummaryOutcome.err e →
       buildSummaries node ps mts (pre ++ h :: rest) cache = ListBuild.err e) ∧
    (∀ (node : Node) (ps : List (String × PoolInfo))
       (cache : List (String × BlockSummary)) (h : String) (mts : Int)
       (buf : RawBytes) (resp : ClientBlock) (e : JsErr),
       cacheGet cache h = none →
       node.getRawBlock h = Except.ok buf →
       node.clientGetBlock h = Except.ok resp →
       node.getBlockHeader h = Except.error e →
       (getBlockSummary node ps cache h mts).result = SummaryOutcome.err e) ∧
    (∀ (node : Node) (ps : List (String × PoolInfo))
       (cache : List (String × BlockDetail)) (h : String) (b : RawBlock)
       (info : HeaderInfo) (e : JsErr),
       cacheGet cache h = none →
       node.getBlock h = Except.ok b →
       node.getBlockHeader h = Except.ok info →
       node.getDetailedTransaction (b.txHashes.headD "") = Except.error e →
       (blockHandler node ps cache h).1 = Response.ok (transformBlock ps b info none)) ∧
    (∀ (node : Node) (ps : List (String × PoolInfo))
       (cache : List (String × BlockSummary)) (h : String) (mts : Int)
       (buf : RawBytes) (resp : ClientBlock) (info : HeaderInfo) (e : JsErr),
       cacheGet cache h = none →
       node.getRawBlock h = Except.ok buf →
       node.clientGetBlock h = Except.ok resp →
       node.getDetailedTransaction (resp.tx.headD "") = Except.error e →
       node.getBlockHeader h = Except.ok info →
       (getBlockSummary node ps cache h mts).result = SummaryOutcome.crash) := by
  refine ⟨buildSummaries_append_err, ?_, ?_, ?_⟩
  · intro node ps cache h mts buf resp e hmiss hraw hclient hheader
    simp only [getBlockSummary, hmiss, hraw, hclient, hheader]
  · intro node ps cache h b info e hmiss hblock hheader htx
    simp only [blockHandler, hmiss, hblock, hheader, htx]
  · intro node ps cache h mts buf resp info e hmiss hraw hclient htx hheader
    simp only [getBlockSummary, hmiss, hraw, hclient, htx, hheader]

/-- Witness for C9 amended at the concrete fixtures: the header error is
propagated even from a node whose transaction-detail collaborator fails
alongside it, and the crash needs the header to have succeeded. -/
theorem error_propagation_amended_witness :
    buildSummaries (errNode 7) [] 0 ([] ++ "h1" :: []) [] = ListBuild.err { code := 7 } ∧
    (getBlockSummary dtxHdrErrNode [] [] "h1" 0).result = SummaryOutcome.err { code := 8 } ∧
    (blockHandler dtErrNode [] [] "x").1 =
      Response.ok (transformBlock [] sampleRawBlock (sampleHeader 6) none) ∧
    (getBlockSummary dtErrNode [] [] "h1" 0).result = SummaryOutcome.crash :=
  ⟨error_propagation_amended.1 (errNode 7) [] 0 [] [] [] [] "h1" [] { code := 7 }
      rfl rfl,
   error_propagation_amended.2.1 dtxHdrErrNode [] [] "h1" 0 sampleRawBytes
      { tx := ["t2"] } { code := 8 } rfl rfl rfl rfl,
   error_propagation_amended.2.2.1 dtErrNode [] [] "x" sampleRawBlock (sampleHeader 6)
      { code := -99 } rfl rfl rfl rfl,
   error_propagation_amended.2.2.2 dtErrNode [] [] "h1" 0 sampleRawBytes
      { tx := ["t2"] } (sampleHeader 6) { code := -99 } rfl rfl rfl rfl rfl⟩

/-! Claim C3. -/

/-- C3 (evaluation of the code at the failing input): on the 2024-01-01
listing with limit 1 over a two-hash day the response has more = true and
the blocks sorted (trivially) by descending height, but moreTs is
1704153600 — the initial upper bound lte — and not 1704100000, the
minimum time among the returned summaries: _getBlockSummary only ever
updated its own by-value copy of moreTimestamp, so the claimed cursor
value is never produced. -/
theorem list_moreTs_stale :
    listBlocks (sampleNode 91) [] sampleEnv [] c3Req = ListOutcome.ok c3Data ∧
    c3Data.pagination.more = true ∧
    c3Data.pagination.moreTs = some 1704153600 ∧
    c3Data.blocks.map (fun b => b.time) = [1704100000] ∧
    c3Data.pagination.moreTs ≠ some (1704100000 : Int) := by
  refine ⟨by decide, by decide, by decide, by decide, by decide⟩

end Blocks
